import Mathlib

/-!
Verification of the statistics and ingestion core of future-sight-nasa.

The JavaScript sources are shallowly embedded as Lean definitions:
* `backend/utils/statisticalCalculations.js` (the Risk Statistics Engine)
  is embedded twice: a typed model over `ℚ` (numbers-only inputs, the
  domain of the functional-correctness claims) and a dynamic model over
  `Option ℚ` (`none` standing for any non-numeric JS value such as
  `undefined`, a string, or `NaN`) used for the input-validation claims.
* `backend/precipitationProcessor.js`, `backend/windSpeedProcessor.js`
  and `backend/humidityProcessor.js` are embedded for their row-skipping,
  per-date-query and range-query logic.  Calendar dates are modelled as
  integer day numbers (JS `Date` comparison and one-day stepping map to
  integer comparison and `+ 1`).

JS numbers are modelled as exact rationals; in-place mutation of an
argument array (`Array.prototype.sort`) is modelled by returning the
final state of the array alongside the result; `throw` is modelled with
`Except String`.
-/

/-- Decidable equality for `Except`, used to evaluate concrete runs. -/
instance {ε α : Type} [DecidableEq ε] [DecidableEq α] : DecidableEq (Except ε α)
  | .ok x, .ok y => decidable_of_iff (x = y) ⟨fun h => h ▸ rfl, fun h => Except.ok.inj h⟩
  | .error e, .error f =>
      decidable_of_iff (e = f) ⟨fun h => h ▸ rfl, fun h => Except.error.inj h⟩
  | .ok _, .error _ => isFalse (fun h => Except.noConfusion h)
  | .error _, .ok _ => isFalse (fun h => Except.noConfusion h)

/-- Whether an `Except` computation succeeded (JS: the call did not throw). -/
def exceptIsOk {ε α : Type} : Except ε α → Bool
  | .ok _ => true
  | .error _ => false

/-- JS `Math.round(x)`: the nearest integer, half rounded toward `+∞`. -/
def mathRound (q : ℚ) : ℤ := ⌊q + 1 / 2⌋

/-- `Math.round(q * 100) / 100` — rounding to 2 decimal places as used in
`calculateStatistics`. -/
def round2 (q : ℚ) : ℚ := (mathRound (q * 100) : ℚ) / 100

/-- JS `Number.prototype.toFixed(1)` on an exact rational: the numerator of
tenths is chosen nearest to `10·q`, ties toward the larger value
(ECMA-262 Number.prototype.toFixed).  Only invoked on non-negative
arguments in the embedded code. -/
def toFixed1 (q : ℚ) : String :=
  let n : ℤ := ⌊q * 10 + 1 / 2⌋
  if n < 0 then "-" ++ toString ((-n) / 10) ++ "." ++ toString ((-n) % 10)
  else toString (n / 10) ++ "." ++ toString (n % 10)

/-- `Math.min(...values)` over a non-empty list (`0` for `[]`, unused). -/
def listMin (values : List ℚ) : ℚ :=
  match values with
  | [] => 0
  | v :: vs => vs.foldl min v

/-- `Math.max(...values)` over a non-empty list (`0` for `[]`, unused). -/
def listMax (values : List ℚ) : ℚ :=
  match values with
  | [] => 0
  | v :: vs => vs.foldl max v

/-! ## Typed model of `backend/utils/statisticalCalculations.js`

Inputs are genuine numbers (`ℚ`); the variable id stays a `String`, with
the operator table `operators` partial exactly as in the source. -/

/-- An adverse-condition comparison operator (`'>='` or `'<='`). -/
inductive AdverseOp where
  | ge
  | le
deriving DecidableEq, Repr

/-- The `operators` table of `checkAdverseCondition` (statisticalCalculations.js
lines 64-71), keyed by variable id; `none` for an unrecognized id. -/
def operators (variable_ : String) : Option AdverseOp :=
  if variable_ = "max_temp" then some .ge
  else if variable_ = "min_temp" then some .le
  else if variable_ = "precipitation" then some .ge
  else if variable_ = "wind_speed" then some .ge
  else if variable_ = "heat_index" then some .ge
  else if variable_ = "air_quality" then some .ge
  else none

/-- Evaluation of an adverse operator at a value and threshold. -/
def applyOp (op : AdverseOp) (value threshold : ℚ) : Bool :=
  match op with
  | .ge => decide (value ≥ threshold)
  | .le => decide (value ≤ threshold)

/-- `checkAdverseCondition(value, threshold, variable)`: looks up the operator
for the variable and compares; throws for an unrecognized variable. -/
def checkAdverseCondition (value threshold : ℚ) (variable_ : String) :
    Except String Bool :=
  match operators variable_ with
  | some op => .ok (applyOp op value threshold)
  | none => .error ("Unknown operator for variable: " ++ variable_)

/-- `calculateProbability(values, threshold, variable)`: `0` for an empty
list, otherwise the adverse count (accumulated through
`checkAdverseCondition`, which can throw) divided by `N`, times 100. -/
def calculateProbability (values : List ℚ) (threshold : ℚ) (variable_ : String) :
    Except String ℚ :=
  if values.isEmpty then .ok 0
  else do
    let adverseCount ← values.foldlM (fun acc value => do
      let isAdverse ← checkAdverseCondition value threshold variable_
      pure (if isAdverse then acc + 1 else acc)) (0 : ℕ)
    pure (((adverseCount : ℚ) / (values.length : ℚ)) * 100)

/-- `calculateMean(values)`: `0` for an empty list, else sum / length. -/
def calculateMean (values : List ℚ) : ℚ :=
  if values.isEmpty then 0
  else (values.foldl (· + ·) 0) / (values.length : ℚ)

/-- One element of a `YearlySample`: `{ year, value }`. -/
structure StatRecord where
  year : ℤ
  value : ℚ
deriving DecidableEq, Repr

/-- Insertion step of a stable sort by ascending year. -/
def insertByYear (r : StatRecord) : List StatRecord → List StatRecord
  | [] => [r]
  | x :: xs => if x.year < r.year then x :: insertByYear r xs else r :: x :: xs

/-- `data.sort((a, b) => a.year - b.year)`: JS `Array.prototype.sort` is
stable, so any stable sort by ascending year produces the same list;
modelled as a stable insertion sort. -/
def sortByYear : List StatRecord → List StatRecord
  | [] => []
  | x :: xs => insertByYear x (sortByYear xs)

/-- Result of `calculateTrendAnalysis` (the fields consumed by
`calculateStatistics`). -/
structure TrendRes where
  trendChange : ℚ
  description : String
deriving DecidableEq, Repr

/-- `calculateTrendAnalysis(data, threshold, variable)`.  The JS function
sorts its argument array in place; the second component of the returned
pair is the state of the caller's array after the call. -/
def calculateTrendAnalysis (data : List StatRecord) (threshold : ℚ)
    (variable_ : String) : Except String TrendRes × List StatRecord :=
  if data.length < 10 then
    (.ok ⟨0, "Insufficient data for trend analysis"⟩, data)
  else
    let sortedData := sortByYear data
    let splitPoint := sortedData.length / 2
    let earlyPeriod := sortedData.take splitPoint
    let recentPeriod := sortedData.drop splitPoint
    let earlyValues := earlyPeriod.map (·.value)
    let recentValues := recentPeriod.map (·.value)
    match calculateProbability earlyValues threshold variable_,
          calculateProbability recentValues threshold variable_ with
    | .error e, _ => (.error e, sortedData)
    | .ok _, .error e => (.error e, sortedData)
    | .ok earlyProbability, .ok recentProbability =>
      let trendChange := recentProbability - earlyProbability
      let y1 := (earlyPeriod.headD ⟨0, 0⟩).year
      let y2 := (earlyPeriod.getLastD ⟨0, 0⟩).year
      let y3 := (recentPeriod.headD ⟨0, 0⟩).year
      let y4 := (recentPeriod.getLastD ⟨0, 0⟩).year
      let earlyYears := s!"{y1}-{y2}"
      let recentYears := s!"{y3}-{y4}"
      let n := data.length
      let pe := toFixed1 earlyProbability
      let pr := toFixed1 recentProbability
      let description :=
        if |trendChange| < 2 then
          s!"Probability has remained relatively stable over the last {n} years ({earlyYears}: {pe}%, {recentYears}: {pr}%)."
        else if trendChange > 0 then
          let tc := toFixed1 trendChange
          s!"Probability has increased by {tc} percentage points over the last {n} years (from {pe}% in {earlyYears} to {pr}% in {recentYears})."
        else
          let tc := toFixed1 |trendChange|
          s!"Probability has decreased by {tc} percentage points over the last {n} years (from {pe}% in {earlyYears} to {pr}% in {recentYears})."
      (.ok ⟨trendChange, description⟩, sortedData)

/-- One histogram bin: `{ min, max, midpoint }`. -/
structure HistBin where
  lo : ℚ
  hi : ℚ
  midpoint : ℚ
deriving DecidableEq, Repr

/-- The `metadata` object of `createDistributionData`. -/
structure DistMeta where
  totalValues : ℕ
  rangeMin : ℚ
  rangeMax : ℚ
  binWidth : ℚ
  threshold : ℚ
  variable_ : String
deriving DecidableEq, Repr

/-- Return value of `createDistributionData`; the empty-input early return
carries no `metadata` object. -/
structure DistributionData where
  bins : List HistBin
  frequencies : List ℕ
  metadata : Option DistMeta
deriving DecidableEq, Repr

/-- The per-value membership test of bin `i` in `createDistributionData`
(lines 178-185): every bin is `[lo, hi)` except the last, which is
`[lo, hi]`. -/
def binMember (mn w : ℚ) (numBins i : ℕ) (value : ℚ) : Bool :=
  let binMin := mn + (i : ℚ) * w
  let binMax := mn + ((i : ℚ) + 1) * w
  if i = numBins - 1 then decide (binMin ≤ value) && decide (value ≤ binMax)
  else decide (binMin ≤ value) && decide (value < binMax)

/-- `createDistributionData(values, threshold, variable)`. -/
def createDistributionData (values : List ℚ) (threshold : ℚ)
    (variable_ : String) : DistributionData :=
  if values.isEmpty then ⟨[], [], none⟩
  else
    let mn := listMin values
    let mx := listMax values
    let range := mx - mn
    let numBins := min 20 (max 10 (values.length / 5))
    let binWidth := range / (numBins : ℚ)
    let bins := (List.range numBins).map (fun i : ℕ =>
      let binMin := mn + (i : ℚ) * binWidth
      let binMax := mn + ((i : ℚ) + 1) * binWidth
      HistBin.mk binMin binMax ((binMin + binMax) / 2))
    let frequencies := (List.range numBins).map (fun i =>
      (values.filter (binMember mn binWidth numBins i)).length)
    ⟨bins, frequencies, some ⟨values.length, mn, mx, binWidth, threshold, variable_⟩⟩

/-- The object returned by `calculateStatistics`. -/
structure StatResult where
  probability : ℚ
  mean : ℚ
  trendChange : ℚ
  trendAnalysis : String
  dataYears : ℕ
  distributionData : DistributionData
  rawValues : List ℚ
  rawYears : List ℤ
  recordCount : ℕ
deriving DecidableEq, Repr

/-- `calculateStatistics(historicalData, threshold, variable)` — the
`computeRiskStatistics` entry point.  `historicalData.data` is the first
argument; the second component of the returned pair is the state of the
caller's `data` array after the call (`calculateTrendAnalysis` sorts it
in place). -/
def calculateStatistics (data : List StatRecord) (threshold : ℚ)
    (variable_ : String) : Except String StatResult × List StatRecord :=
  if data.isEmpty then
    (.error "No historical data available for analysis", data)
  else
    let values := data.map (·.value)
    let years := data.map (·.year)
    match calculateProbability values threshold variable_ with
    | .error e => (.error e, data)
    | .ok probability =>
      let mean := calculateMean values
      match calculateTrendAnalysis data threshold variable_ with
      | (.error e, dataAfter) => (.error e, dataAfter)
      | (.ok trendAnalysis, dataAfter) =>
        let distributionData := createDistributionData values threshold variable_
        (.ok { probability := round2 probability
               mean := round2 mean
               trendChange := round2 trendAnalysis.trendChange
               trendAnalysis := trendAnalysis.description
               dataYears := years.length
               distributionData := distributionData
               rawValues := values
               rawYears := years
               recordCount := data.length }, dataAfter)

/-! ## Reference definition of the trend analysis (for the refinement claim)

Written from the specification text, not from the source: total over a
given adverse operator, split via take/drop at `⌊N/2⌋`, exceedance
probability per half as count-over-size times 100. -/

/-- Specification formula: count the values satisfying the operator against
the threshold, divide by `N`, multiply by 100 (`0` when `N = 0`, since
division by zero is `0` in `ℚ`). -/
def exceedanceProbabilitySpec (values : List ℚ) (threshold : ℚ)
    (op : AdverseOp) : ℚ :=
  ((values.countP (fun v => applyOp op v threshold) : ℚ) / (values.length : ℚ)) * 100

/-- Reference trend analysis per the specification: below 10 samples report
insufficient data with a change of 0 and no split; otherwise sort by year
ascending, split at `⌊N/2⌋` (extra element to the recent half), compute
each half's exceedance probability with the same operator and threshold,
subtract, and describe through the three wording branches, embedding the
two year ranges and both half-probabilities to one decimal place. -/
def trendAnalysisSpec (data : List StatRecord) (threshold : ℚ)
    (op : AdverseOp) : TrendRes :=
  if data.length < 10 then ⟨0, "Insufficient data for trend analysis"⟩
  else
    let sorted := sortByYear data
    let halfSize := data.length / 2
    let early := sorted.take halfSize
    let recent := sorted.drop halfSize
    let earlyProbability := exceedanceProbabilitySpec (early.map (·.value)) threshold op
    let recentProbability := exceedanceProbabilitySpec (recent.map (·.value)) threshold op
    let trendChange := recentProbability - earlyProbability
    let y1 := (early.headD ⟨0, 0⟩).year
    let y2 := (early.getLastD ⟨0, 0⟩).year
    let y3 := (recent.headD ⟨0, 0⟩).year
    let y4 := (recent.getLastD ⟨0, 0⟩).year
    let earlyYears := s!"{y1}-{y2}"
    let recentYears := s!"{y3}-{y4}"
    let n := data.length
    let pe := toFixed1 earlyProbability
    let pr := toFixed1 recentProbability
    let description :=
      if |trendChange| < 2 then
        s!"Probability has remained relatively stable over the last {n} years ({earlyYears}: {pe}%, {recentYears}: {pr}%)."
      else if trendChange > 0 then
        let tc := toFixed1 trendChange
        s!"Probability has increased by {tc} percentage points over the last {n} years (from {pe}% in {earlyYears} to {pr}% in {recentYears})."
      else
        let tc := toFixed1 |trendChange|
        s!"Probability has decreased by {tc} percentage points over the last {n} years (from {pe}% in {earlyYears} to {pr}% in {recentYears})."
    ⟨trendChange, description⟩

/-! ## Dynamic model of `backend/utils/statisticalCalculations.js`

JS values reaching the statistics functions are modelled as `Option ℚ`:
`some q` is a genuine (non-`NaN`) number, `none` is any other value
(`undefined`, `null`, a string, `NaN`) — exactly the values the source's
comparisons treat as "comparison is false" and its arithmetic turns into
`NaN`.  This model settles the input-validation claims. -/

/-- A JS value as seen by the statistics module. -/
abbrev JVal := Option ℚ

/-- JS `a >= b`: false whenever either side is not a number. -/
def jsGeB (a b : JVal) : Bool :=
  match a, b with
  | some x, some y => decide (x ≥ y)
  | _, _ => false

/-- JS `a <= b`: false whenever either side is not a number. -/
def jsLeB (a b : JVal) : Bool :=
  match a, b with
  | some x, some y => decide (x ≤ y)
  | _, _ => false

/-- JS `a < b`: false whenever either side is not a number. -/
def jsLtB (a b : JVal) : Bool :=
  match a, b with
  | some x, some y => decide (x < y)
  | _, _ => false

/-- JS `a + b` on values that are numbers or `NaN`-like; `NaN` absorbs. -/
def jsAdd (a b : JVal) : JVal :=
  match a, b with
  | some x, some y => some (x + y)
  | _, _ => none

/-- JS `a - b`; `NaN` absorbs. -/
def jsSub (a b : JVal) : JVal :=
  match a, b with
  | some x, some y => some (x - y)
  | _, _ => none

/-- JS `a / b`; `NaN` absorbs.  Zero denominators do not occur on any path
of the embedded code (lengths and bin counts are positive). -/
def jsDiv (a b : JVal) : JVal :=
  match a, b with
  | some x, some y => some (x / y)
  | _, _ => none

/-- JS `a * b`; `NaN` absorbs. -/
def jsMul (a b : JVal) : JVal :=
  match a, b with
  | some x, some y => some (x * y)
  | _, _ => none

/-- JS `Math.min(acc, v)` as used in a fold; `NaN` absorbs. -/
def jsMin2 (a b : JVal) : JVal :=
  match a, b with
  | some x, some y => some (min x y)
  | _, _ => none

/-- JS `Math.max(acc, v)` as used in a fold; `NaN` absorbs. -/
def jsMax2 (a b : JVal) : JVal :=
  match a, b with
  | some x, some y => some (max x y)
  | _, _ => none

/-- `Math.round(x * 100) / 100` on a dynamic value; `NaN` stays `NaN`. -/
def jsRound2 (a : JVal) : JVal := a.map round2

/-- `x.toFixed(1)` on a dynamic value; JS renders `NaN` as "NaN". -/
def toFixed1Dyn (a : JVal) : String :=
  match a with
  | some q => toFixed1 q
  | none => "NaN"

/-- Template-literal rendering of a dynamic value; integers render as in
JS, `none` as "undefined" (the claims only exercise integral years). -/
def jsValStr (a : JVal) : String :=
  match a with
  | some q => if q.den = 1 then toString q.num else toString q.num ++ "/" ++ toString q.den
  | none => "undefined"

/-- A `{ year, value }` record whose fields may hold non-numeric values. -/
structure DynRecord where
  year : JVal
  value : JVal
deriving DecidableEq, Repr

/-- `checkAdverseCondition` under dynamic typing: an unrecognized variable
throws; otherwise the JS comparison (false on non-numbers) is returned. -/
def checkAdverseConditionDyn (value threshold : JVal) (variable_ : String) :
    Except String Bool :=
  match operators variable_ with
  | some .ge => .ok (jsGeB value threshold)
  | some .le => .ok (jsLeB value threshold)
  | none => .error ("Unknown operator for variable: " ++ variable_)

/-- `calculateProbability` under dynamic typing: the count and percentage
stay numeric for every input because comparisons never produce `NaN`. -/
def calculateProbabilityDyn (values : List JVal) (threshold : JVal)
    (variable_ : String) : Except String ℚ :=
  if values.isEmpty then .ok 0
  else do
    let adverseCount ← values.foldlM (fun acc value => do
      let isAdverse ← checkAdverseConditionDyn value threshold variable_
      pure (if isAdverse then acc + 1 else acc)) (0 : ℕ)
    pure (((adverseCount : ℚ) / (values.length : ℚ)) * 100)

/-- `calculateMean` under dynamic typing: a non-numeric element makes the
running sum, hence the mean, `NaN`. -/
def calculateMeanDyn (values : List JVal) : JVal :=
  if values.isEmpty then some 0
  else jsDiv (values.foldl jsAdd (some 0)) (some (values.length : ℚ))

/-- Sort key of `(a, b) => a.year - b.year` under dynamic typing.  JS sort
keeps the relative order when the comparator returns `NaN`; with a
non-numeric year the subtraction is `NaN`, modelled as "not less". -/
def dynYearLt (a b : DynRecord) : Bool :=
  match a.year, b.year with
  | some x, some y => decide (x < y)
  | _, _ => false

/-- Insertion step of the stable sort for dynamic records. -/
def insertByYearDyn (r : DynRecord) : List DynRecord → List DynRecord
  | [] => [r]
  | x :: xs => if dynYearLt x r then x :: insertByYearDyn r xs else r :: x :: xs

/-- `data.sort((a, b) => a.year - b.year)` on dynamic records. -/
def sortByYearDyn : List DynRecord → List DynRecord
  | [] => []
  | x :: xs => insertByYearDyn x (sortByYearDyn xs)

/-- `calculateTrendAnalysis` under dynamic typing; as in the typed model
the second component is the caller's array after the in-place sort. -/
def calculateTrendAnalysisDyn (data : List DynRecord) (threshold : JVal)
    (variable_ : String) : Except String TrendRes × List DynRecord :=
  if data.length < 10 then
    (.ok ⟨0, "Insufficient data for trend analysis"⟩, data)
  else
    let sortedData := sortByYearDyn data
    let splitPoint := sortedData.length / 2
    let earlyPeriod := sortedData.take splitPoint
    let recentPeriod := sortedData.drop splitPoint
    let earlyValues := earlyPeriod.map (·.value)
    let recentValues := recentPeriod.map (·.value)
    match calculateProbabilityDyn earlyValues threshold variable_,
          calculateProbabilityDyn recentValues threshold variable_ with
    | .error e, _ => (.error e, sortedData)
    | .ok _, .error e => (.error e, sortedData)
    | .ok earlyProbability, .ok recentProbability =>
      let trendChange := recentProbability - earlyProbability
      let y1 := jsValStr (earlyPeriod.headD ⟨none, none⟩).year
      let y2 := jsValStr (earlyPeriod.getLastD ⟨none, none⟩).year
      let y3 := jsValStr (recentPeriod.headD ⟨none, none⟩).year
      let y4 := jsValStr (recentPeriod.getLastD ⟨none, none⟩).year
      let earlyYears := s!"{y1}-{y2}"
      let recentYears := s!"{y3}-{y4}"
      let n := data.length
      let pe := toFixed1 earlyProbability
      let pr := toFixed1 recentProbability
      let description :=
        if |trendChange| < 2 then
          s!"Probability has remained relatively stable over the last {n} years ({earlyYears}: {pe}%, {recentYears}: {pr}%)."
        else if trendChange > 0 then
          let tc := toFixed1 trendChange
          s!"Probability has increased by {tc} percentage points over the last {n} years (from {pe}% in {earlyYears} to {pr}% in {recentYears})."
        else
          let tc := toFixed1 |trendChange|
          s!"Probability has decreased by {tc} percentage points over the last {n} years (from {pe}% in {earlyYears} to {pr}% in {recentYears})."
      (.ok ⟨trendChange, description⟩, sortedData)

/-- A bin of the dynamic histogram (bounds may be `NaN`). -/
structure HistBinDyn where
  lo : JVal
  hi : JVal
  midpoint : JVal
deriving DecidableEq, Repr

/-- The `metadata` object of the dynamic histogram. -/
structure DistMetaDyn where
  totalValues : ℕ
  rangeMin : JVal
  rangeMax : JVal
  binWidth : JVal
  threshold : JVal
  variable_ : String
deriving DecidableEq, Repr

/-- Return value of `createDistributionData` under dynamic typing. -/
structure DistributionDataDyn where
  bins : List HistBinDyn
  frequencies : List ℕ
  metadata : Option DistMetaDyn
deriving DecidableEq, Repr

/-- `createDistributionData` under dynamic typing: with any non-numeric
element, min/max/width become `NaN`, every bin-membership comparison is
false and every frequency is 0 — but nothing throws. -/
def createDistributionDataDyn (values : List JVal) (threshold : JVal)
    (variable_ : String) : DistributionDataDyn :=
  if values.isEmpty then ⟨[], [], none⟩
  else
    let mn := match values with
      | [] => some 0
      | v :: vs => vs.foldl jsMin2 v
    let mx := match values with
      | [] => some 0
      | v :: vs => vs.foldl jsMax2 v
    let range := jsSub mx mn
    let numBins := min 20 (max 10 (values.length / 5))
    let binWidth := jsDiv range (some (numBins : ℚ))
    let bins := (List.range numBins).map (fun i : ℕ =>
      let binMin := jsAdd mn (jsMul (some (i : ℚ)) binWidth)
      let binMax := jsAdd mn (jsMul (some ((i : ℚ) + 1)) binWidth)
      HistBinDyn.mk binMin binMax (jsDiv (jsAdd binMin binMax) (some 2)))
    let frequencies := (List.range numBins).map (fun i : ℕ =>
      let binMin := jsAdd mn (jsMul (some (i : ℚ)) binWidth)
      let binMax := jsAdd mn (jsMul (some ((i : ℚ) + 1)) binWidth)
      (values.filter (fun value =>
        if i = numBins - 1 then jsGeB value binMin && jsLeB value binMax
        else jsGeB value binMin && jsLtB value binMax)).length)
    ⟨bins, frequencies, some ⟨values.length, mn, mx, binWidth, threshold, variable_⟩⟩

/-- The result object of `calculateStatistics` under dynamic typing. -/
structure StatResultDyn where
  probability : ℚ
  mean : JVal
  trendChange : ℚ
  trendAnalysis : String
  dataYears : ℕ
  distributionData : DistributionDataDyn
  rawValues : List JVal
  rawYears : List JVal
  recordCount : ℕ
deriving DecidableEq, Repr

/-- `calculateStatistics` under dynamic typing.  Note: it performs no
threshold or element-type validation of its own. -/
def calculateStatisticsDyn (data : List DynRecord) (threshold : JVal)
    (variable_ : String) : Except String StatResultDyn × List DynRecord :=
  if data.isEmpty then
    (.error "No historical data available for analysis", data)
  else
    let values := data.map (·.value)
    let years := data.map (·.year)
    match calculateProbabilityDyn values threshold variable_ with
    | .error e => (.error e, data)
    | .ok probability =>
      let mean := calculateMeanDyn values
      match calculateTrendAnalysisDyn data threshold variable_ with
      | (.error e, dataAfter) => (.error e, dataAfter)
      | (.ok trendAnalysis, dataAfter) =>
        let distributionData := createDistributionDataDyn values threshold variable_
        (.ok { probability := round2 probability
               mean := jsRound2 mean
               trendChange := round2 trendAnalysis.trendChange
               trendAnalysis := trendAnalysis.description
               dataYears := years.length
               distributionData := distributionData
               rawValues := values
               rawYears := years
               recordCount := data.length }, dataAfter)

/-- The `validVariables` list of `validateStatisticalInputs`. -/
def validVariables : List String :=
  ["max_temp", "min_temp", "precipitation", "wind_speed", "heat_index", "air_quality"]

/-- `validateStatisticalInputs(data, threshold, variable)`
(statisticalCalculations.js lines 244-269).  Exported by the module but
invoked by no caller in the repository. -/
def validateStatisticalInputs (data : List DynRecord) (threshold : JVal)
    (variable_ : String) : Except String Unit :=
  if data.isEmpty then
    .error "Invalid data: must be a non-empty array"
  else if threshold.isNone then
    .error "Invalid threshold: must be a number"
  else if ¬ (validVariables.contains variable_) then
    .error ("Invalid variable: must be one of " ++ String.intercalate ", " validVariables)
  else if ¬ (data.all fun record => record.value.isSome && record.year.isSome) then
    .error "Invalid data structure: each record must have numeric value and year properties"
  else .ok ()

/-! ## Ingestion row handling

`parseFloatM` models JS `parseFloat` restricted to plain decimal numerals
(optional sign, digit run, optional fractional digit run, trailing
characters ignored) — the shapes occurring in the sensor CSV files; the
ingestion theorems quantify only over value fields on which `parseFloatM`
succeeds, matching the claims' "parses as a number" proviso. -/

/-- Leading digit run of a character list, as digit values, with the rest. -/
def takeDigits : List Char → List ℕ × List Char
  | [] => ([], [])
  | c :: cs =>
    if c.isDigit then
      let (ds, rest) := takeDigits cs
      ((c.toNat - 48) :: ds, rest)
    else ([], c :: cs)

/-- Digit list to natural number, most significant first. -/
def digitsToNat (ds : List ℕ) : ℕ := ds.foldl (fun a d => 10 * a + d) 0

/-- JS `parseFloat` on a plain decimal numeral; `none` models `NaN`. -/
def parseFloatM (s : String) : Option ℚ :=
  let (neg, cs) :=
    match s.toList with
    | c :: rest =>
      if c = '-' then (true, rest)
      else if c = '+' then (false, rest)
      else (false, s.toList)
    | [] => (false, ([] : List Char))
  match takeDigits cs with
  | ([], _) => none
  | (ds, rest) =>
    let intPart : ℚ := (digitsToNat ds : ℚ)
    let q : ℚ :=
      match rest with
      | '.' :: cs2 =>
        let (fs, _) := takeDigits cs2
        intPart + (digitsToNat fs : ℚ) / ((10 : ℚ) ^ fs.length)
      | _ => intPart
    some (if neg then -q else q)

/-- Whether `pat` occurs as a contiguous run at the front of `l`. -/
def listStartsWith : List Char → List Char → Bool
  | [], _ => true
  | _ :: _, [] => false
  | a :: as, b :: bs => a = b && listStartsWith as bs

/-- Whether `pat` occurs as a contiguous run anywhere in `l`. -/
def listHasRun (pat : List Char) : List Char → Bool
  | [] => pat.isEmpty
  | b :: bs => listStartsWith pat (b :: bs) || listHasRun pat bs

/-- JS `s.includes(pat)`. -/
def containsStr (s pat : String) : Bool := listHasRun pat.toList s.toList

/-- The per-row acceptance test of `loadPrecipitationData`
(precipitationProcessor.js lines 56-80) on one pre-split data row: the
column count must reach both column indices, the timestamp must be
truthy (non-empty after trimming), the value must parse as a number and
must differ from the sentinel by exact equality.  The identical test
appears in `loadWindSpeedData` (windSpeedProcessor.js lines 55-79). -/
def precipRowAccepted (timeColIndex precipColIndex : ℕ) (columns : List String) :
    Bool :=
  if columns.length < max timeColIndex precipColIndex + 1 then false
  else
    let timestamp := columns.getD timeColIndex ""
    match parseFloatM (columns.getD precipColIndex "") with
    | none => false
    | some precipValue => !(timestamp = "") && !(precipValue = -9999)

/-- `totalRecords` after scanning the given data rows: one increment per
accepted row. -/
def precipReadingCount (timeColIndex precipColIndex : ℕ)
    (rows : List (List String)) : ℕ :=
  (rows.filter (precipRowAccepted timeColIndex precipColIndex)).length

/-- The per-row acceptance test of `loadHumidityData`
(humidityProcessor.js lines 31-57): metadata rows are filtered by
substring checks on the first column, then the second column must parse
as a number and pass the range check `humidity > -9999`. -/
def humidityRowAccepted (vals : List String) : Bool :=
  match vals.headD "" with
  | firstValue =>
    if firstValue = "" then false
    else if containsStr firstValue "time" then false
    else if !(containsStr firstValue "Title:") && !(containsStr firstValue "User")
        && !(containsStr firstValue "Data") && !(containsStr firstValue "URL")
        && !(containsStr firstValue "Fill Value") && decide (firstValue.length > 8) then
      if vals.length ≥ 2 then
        match parseFloatM (vals.getD 1 "") with
        | some humidity => decide (humidity > -9999)
        | none => false
      else false
    else false

/-- Number of humidity records retained from the given rows. -/
def humidityReadingCount (rows : List (List String)) : ℕ :=
  (rows.filter humidityRowAccepted).length

/-! ## Per-date and range queries of the precipitation and wind processors

Dates are integer day numbers; the per-variable `Map` of readings is a
function from date to the optional list of that date's readings. -/

/-- One stored reading `{ time, value, raw }`. -/
structure RawReading where
  time : String
  value : ℚ
  raw : ℚ
deriving DecidableEq, Repr

/-- The daily aggregate built by `getPrecipitationForDate`. -/
structure DailyPrecip where
  date : ℤ
  readings : ℕ
  daily_total_mm : ℚ
  average_mm_per_hour : ℚ
  max_mm_per_hour : ℚ
  min_mm_per_hour : ℚ
  raw_readings : List RawReading
deriving DecidableEq, Repr

/-- `getPrecipitationForDate(date)` (precipitationProcessor.js lines
96-124): throws when the load has not completed; otherwise `null` for a
date without readings, else the day's aggregate. -/
def getPrecipitationForDate (isDataLoaded : Bool)
    (precipitationData : ℤ → Option (List RawReading)) (date : ℤ) :
    Except String (Option DailyPrecip) :=
  if !isDataLoaded then .error "Precipitation data not loaded"
  else
    match precipitationData date with
    | none => .ok none
    | some [] => .ok none
    | some (r :: rs) =>
      let values := (r :: rs).map (·.value)
      let total := values.foldl (· + ·) 0
      let average := total / (values.length : ℚ)
      .ok (some ⟨date, (r :: rs).length, total * 3, average,
                 listMax values, listMin values, r :: rs⟩)

/-- `getPrecipitationRange(startDate, endDate)` (lines 126-144): the JS
loop steps a `Date` cursor from `startDate` while `cursor <= endDate`,
collecting each day's truthy aggregate; with integer day numbers the
iteration count is `max 0 (endDate + 1 - startDate)`. -/
def getPrecipitationRange (isDataLoaded : Bool)
    (precipitationData : ℤ → Option (List RawReading))
    (startDate endDate : ℤ) : Except String (List DailyPrecip) :=
  if !isDataLoaded then .error "Precipitation data not loaded"
  else
    let days : ℕ := (endDate + 1 - startDate).toNat
    .ok ((List.range days).filterMap (fun i =>
      match getPrecipitationForDate isDataLoaded precipitationData (startDate + (i : ℤ)) with
      | .ok (some dayData) => some dayData
      | _ => none))

/-- The Beaufort-style label assigned from the day's mean wind speed
(windSpeedProcessor.js lines 111-121). -/
def windCategory (average : ℚ) : String :=
  if average ≥ 0.3 ∧ average < 1.6 then "Light Air"
  else if average ≥ 1.6 ∧ average < 3.4 then "Light Breeze"
  else if average ≥ 3.4 ∧ average < 5.5 then "Gentle Breeze"
  else if average ≥ 5.5 ∧ average < 8.0 then "Moderate Breeze"
  else if average ≥ 8.0 ∧ average < 10.8 then "Fresh Breeze"
  else if average ≥ 10.8 ∧ average < 13.9 then "Strong Breeze"
  else if average ≥ 13.9 ∧ average < 17.2 then "Near Gale"
  else if average ≥ 17.2 ∧ average < 20.8 then "Gale"
  else if average ≥ 20.8 then "Strong Gale+"
  else "Calm"

/-- The daily aggregate built by `getWindSpeedForDate`. -/
structure DailyWind where
  date : ℤ
  readings : ℕ
  average_wind_speed_ms : ℚ
  max_wind_speed_ms : ℚ
  min_wind_speed_ms : ℚ
  wind_category : String
  raw_readings : List RawReading
deriving DecidableEq, Repr

/-- `getWindSpeedForDate(date)` (windSpeedProcessor.js lines 95-134). -/
def getWindSpeedForDate (isDataLoaded : Bool)
    (windSpeedData : ℤ → Option (List RawReading)) (date : ℤ) :
    Except String (Option DailyWind) :=
  if !isDataLoaded then .error "Wind speed data not loaded"
  else
    match windSpeedData date with
    | none => .ok none
    | some [] => .ok none
    | some (r :: rs) =>
      let values := (r :: rs).map (·.value)
      let average := (values.foldl (· + ·) 0) / (values.length : ℚ)
      .ok (some ⟨date, (r :: rs).length, average,
                 listMax values, listMin values, windCategory average, r :: rs⟩)

/-- `getWindSpeedRange(startDate, endDate)` (lines 136-154). -/
def getWindSpeedRange (isDataLoaded : Bool)
    (windSpeedData : ℤ → Option (List RawReading))
    (startDate endDate : ℤ) : Except String (List DailyWind) :=
  if !isDataLoaded then .error "Wind speed data not loaded"
  else
    let days : ℕ := (endDate + 1 - startDate).toNat
    .ok ((List.range days).filterMap (fun i =>
      match getWindSpeedForDate isDataLoaded windSpeedData (startDate + (i : ℤ)) with
      | .ok (some dayData) => some dayData
      | _ => none))


/-! ## Concrete data used by witnesses and counterexamples -/

/-- The specification's worked example: years 2014-2023 with values
10,20,...,100. -/
def exSample : List StatRecord :=
  [⟨2014, 10⟩, ⟨2015, 20⟩, ⟨2016, 30⟩, ⟨2017, 40⟩, ⟨2018, 50⟩,
   ⟨2019, 60⟩, ⟨2020, 70⟩, ⟨2021, 80⟩, ⟨2022, 90⟩, ⟨2023, 100⟩]

/-- The same sample with the years in descending order. -/
def exSampleUnsorted : List StatRecord :=
  [⟨2023, 10⟩, ⟨2022, 20⟩, ⟨2021, 30⟩, ⟨2020, 40⟩, ⟨2019, 50⟩,
   ⟨2018, 60⟩, ⟨2017, 70⟩, ⟨2016, 80⟩, ⟨2015, 90⟩, ⟨2014, 100⟩]

/-- A reading store holding data for day 3 only. -/
def exStore : ℤ → Option (List RawReading) :=
  fun d => if d = 3 then some [⟨"00:00", 1, 1⟩] else none

/-! ## Helper lemmas -/

/-- The adverse-count fold of `calculateProbability` succeeds and counts
the values satisfying the operator, for a recognized variable. -/
lemma foldCount_ok (t : ℚ) (v : String) (op : AdverseOp)
    (h : operators v = some op) :
    ∀ (l : List ℚ) (acc : ℕ),
      (l.foldlM (fun acc value => do
        let isAdverse ← checkAdverseCondition value t v
        pure (if isAdverse then acc + 1 else acc)) acc : Except String ℕ)
      = .ok (acc + l.countP (fun x => applyOp op x t)) := by
  intro l
  induction l with
  | nil => intro acc; rfl
  | cons x xs ih =>
    intro acc
    have hc : checkAdverseCondition x t v = .ok (applyOp op x t) := by
      unfold checkAdverseCondition
      rw [h]
    have step : ((x :: xs).foldlM (fun acc value => do
          let isAdverse ← checkAdverseCondition value t v
          pure (if isAdverse then acc + 1 else acc)) acc : Except String ℕ)
        = xs.foldlM (fun acc value => do
          let isAdverse ← checkAdverseCondition value t v
          pure (if isAdverse then acc + 1 else acc))
          (if applyOp op x t then acc + 1 else acc) := by
      rw [List.foldlM_cons, hc]
      rfl
    rw [step, ih]
    congr 1
    rw [List.countP_cons]
    by_cases hx : applyOp op x t = true
    · simp [hx]; omega
    · simp [hx]

/-- `calculateProbability` for a recognized variable equals the
specification formula. -/
lemma calculateProbability_ok (values : List ℚ) (t : ℚ) (v : String)
    (op : AdverseOp) (h : operators v = some op) :
    calculateProbability values t v = .ok (exceedanceProbabilitySpec values t op) := by
  unfold calculateProbability exceedanceProbabilitySpec
  cases values with
  | nil => simp
  | cons x xs =>
    simp only [List.isEmpty_cons, Bool.false_eq_true, if_false]
    rw [foldCount_ok t v op h]
    simp [bind, Except.bind, pure, Except.pure]

/-- Inserting adds one element. -/
lemma insertByYear_length (r : StatRecord) (l : List StatRecord) :
    (insertByYear r l).length = l.length + 1 := by
  induction l with
  | nil => rfl
  | cons x xs ih =>
    unfold insertByYear
    by_cases hx : x.year < r.year
    · simp [hx, ih]
    · simp [hx]

/-- Insertion permutes consing. -/
lemma insertByYear_perm (r : StatRecord) (l : List StatRecord) :
    (insertByYear r l).Perm (r :: l) := by
  induction l with
  | nil => exact .refl _
  | cons x xs ih =>
    unfold insertByYear
    by_cases hx : x.year < r.year
    · simp only [if_pos hx]
      exact .trans (.cons x ih) (.swap r x xs)
    · simp only [if_neg hx]
      exact .refl _

/-- The sorted list is a permutation of the input. -/
lemma sortByYear_perm (l : List StatRecord) : (sortByYear l).Perm l := by
  induction l with
  | nil => exact .refl _
  | cons x xs ih =>
    unfold sortByYear
    exact .trans (insertByYear_perm x (sortByYear xs)) (.cons x ih)

/-- Sorting preserves the length. -/
lemma sortByYear_length (l : List StatRecord) :
    (sortByYear l).length = l.length :=
  (sortByYear_perm l).length_eq

/-- `calculateTrendAnalysis` for a recognized variable: the result is the
specification's trend analysis and the caller's array ends up sorted by
year whenever the split was attempted. -/
lemma calculateTrendAnalysis_ok (data : List StatRecord) (t : ℚ) (v : String)
    (op : AdverseOp) (h : operators v = some op) :
    calculateTrendAnalysis data t v =
      (.ok (trendAnalysisSpec data t op),
       if data.length < 10 then data else sortByYear data) := by
  have hp : ∀ values, calculateProbability values t v
      = .ok (exceedanceProbabilitySpec values t op) :=
    fun values => calculateProbability_ok values t v op h
  unfold calculateTrendAnalysis trendAnalysisSpec
  by_cases hlen : data.length < 10
  · simp [hlen]
  · simp only [if_neg hlen, hp, sortByYear_length]

/-- Full characterization of a successful `calculateStatistics` call. -/
lemma calculateStatistics_eq (data : List StatRecord) (t : ℚ) (v : String)
    (op : AdverseOp) (h : operators v = some op) (hne : data ≠ []) :
    calculateStatistics data t v =
      (.ok { probability := round2 (exceedanceProbabilitySpec (data.map (·.value)) t op)
             mean := round2 (calculateMean (data.map (·.value)))
             trendChange := round2 (trendAnalysisSpec data t op).trendChange
             trendAnalysis := (trendAnalysisSpec data t op).description
             dataYears := (data.map (·.year)).length
             distributionData := createDistributionData (data.map (·.value)) t v
             rawValues := data.map (·.value)
             rawYears := data.map (·.year)
             recordCount := data.length },
       if data.length < 10 then data else sortByYear data) := by
  have hne' : data.isEmpty = false := by
    cases data with
    | nil => exact absurd rfl hne
    | cons x xs => rfl
  unfold calculateStatistics
  rw [hne']
  simp only [Bool.false_eq_true, if_false]
  rw [calculateProbability_ok _ t v op h, calculateTrendAnalysis_ok data t v op h]

/-- A fold by `min` is bounded by its initial accumulator. -/
lemma foldl_min_le_init (l : List ℚ) : ∀ a : ℚ, l.foldl min a ≤ a := by
  induction l with
  | nil => intro a; simp
  | cons x xs ih =>
    intro a
    simp only [List.foldl_cons]
    exact le_trans (ih (min a x)) (min_le_left a x)

/-- A fold by `min` is bounded by every list element. -/
lemma foldl_min_le_mem (l : List ℚ) : ∀ a : ℚ, ∀ x ∈ l, l.foldl min a ≤ x := by
  induction l with
  | nil => intro a x hx; cases hx
  | cons y ys ih =>
    intro a x hx
    simp only [List.foldl_cons]
    rcases List.mem_cons.mp hx with h | h
    · subst h
      exact le_trans (foldl_min_le_init ys (min a x)) (min_le_right a x)
    · exact ih (min a y) x h

/-- A fold by `max` dominates its initial accumulator. -/
lemma init_le_foldl_max (l : List ℚ) : ∀ a : ℚ, a ≤ l.foldl max a := by
  induction l with
  | nil => intro a; simp
  | cons x xs ih =>
    intro a
    simp only [List.foldl_cons]
    exact le_trans (le_max_left a x) (ih (max a x))

/-- A fold by `max` dominates every list element. -/
lemma mem_le_foldl_max (l : List ℚ) : ∀ a : ℚ, ∀ x ∈ l, x ≤ l.foldl max a := by
  induction l with
  | nil => intro a x hx; cases hx
  | cons y ys ih =>
    intro a x hx
    simp only [List.foldl_cons]
    rcases List.mem_cons.mp hx with h | h
    · subst h
      exact le_trans (le_max_right a x) (init_le_foldl_max ys (max a x))
    · exact ih (max a y) x h

/-- A fold by `max` yields the accumulator or a list element. -/
lemma foldl_max_mem (l : List ℚ) : ∀ a : ℚ, l.foldl max a = a ∨ l.foldl max a ∈ l := by
  induction l with
  | nil => intro a; left; rfl
  | cons x xs ih =>
    intro a
    simp only [List.foldl_cons]
    rcases ih (max a x) with h | h
    · rw [h]
      rcases max_choice a x with h2 | h2
    -- the max of the two is either the old accumulator or the new element
      · left; exact h2
      · right; rw [h2]; exact List.mem_cons_self x xs
    · right; exact List.mem_cons_of_mem x h

/-- `listMin` bounds every element from below. -/
lemma listMin_le (values : List ℚ) (x : ℚ) (hx : x ∈ values) :
    listMin values ≤ x := by
  cases values with
  | nil => cases hx
  | cons v vs =>
    unfold listMin
    rcases List.mem_cons.mp hx with h | h
    · subst h; exact foldl_min_le_init vs x
    · exact foldl_min_le_mem vs v x h

/-- `listMax` bounds every element from above. -/
lemma le_listMax (values : List ℚ) (x : ℚ) (hx : x ∈ values) :
    x ≤ listMax values := by
  cases values with
  | nil => cases hx
  | cons v vs =>
    unfold listMax
    rcases List.mem_cons.mp hx with h | h
    · subst h; exact init_le_foldl_max vs x
    · exact mem_le_foldl_max vs v x h

/-- The maximum of a non-empty list is attained by an element. -/
lemma listMax_mem (values : List ℚ) (h : values ≠ []) :
    listMax values ∈ values := by
  cases values with
  | nil => exact absurd rfl h
  | cons v vs =>
    show List.foldl max v vs ∈ v :: vs
    rcases foldl_max_mem vs v with h2 | h2
    · rw [h2]; exact List.mem_cons_self v vs
    · exact List.mem_cons_of_mem v h2

/-- `round2` of a non-negative rational is non-negative. -/
lemma round2_nonneg (q : ℚ) (h : 0 ≤ q) : 0 ≤ round2 q := by
  unfold round2 mathRound
  have h1 : (0 : ℤ) ≤ ⌊q * 100 + 1 / 2⌋ := by
    apply Int.floor_nonneg.mpr
    nlinarith
  have h2 : (0 : ℚ) ≤ (⌊q * 100 + 1 / 2⌋ : ℚ) := by exact_mod_cast h1
  positivity

/-- `round2` of a rational at most 100 stays at most 100. -/
lemma round2_le_100 (q : ℚ) (h : q ≤ 100) : round2 q ≤ 100 := by
  unfold round2 mathRound
  have h1 : ⌊q * 100 + 1 / 2⌋ ≤ 10000 := by
    have hlt : q * 100 + 1 / 2 < 10001 := by nlinarith
    by_contra hcon
    push_neg at hcon
    have hcast : (10001 : ℚ) ≤ q * 100 + 1 / 2 := by
      have := Int.le_floor.mp (by omega : (10001 : ℤ) ≤ ⌊q * 100 + 1 / 2⌋)
      exact_mod_cast this
    linarith
  have h2 : (⌊q * 100 + 1 / 2⌋ : ℚ) ≤ 10000 := by exact_mod_cast h1
  linarith

/-- The specification's exceedance probability is non-negative. -/
lemma exceedanceProbabilitySpec_nonneg (values : List ℚ) (t : ℚ) (op : AdverseOp) :
    0 ≤ exceedanceProbabilitySpec values t op := by
  unfold exceedanceProbabilitySpec
  positivity

/-- The specification's exceedance probability is at most 100. -/
lemma exceedanceProbabilitySpec_le_100 (values : List ℚ) (t : ℚ) (op : AdverseOp) :
    exceedanceProbabilitySpec values t op ≤ 100 := by
  unfold exceedanceProbabilitySpec
  cases values with
  | nil => simp
  | cons v vs =>
    have hlen : (0 : ℚ) < ((v :: vs).length : ℚ) := by
      exact_mod_cast List.length_pos.mpr (List.cons_ne_nil v vs)
    have hcount : ((v :: vs).countP (fun x => applyOp op x t) : ℚ) ≤ ((v :: vs).length : ℚ) := by
      exact_mod_cast List.countP_le_length _
    have hdiv : ((v :: vs).countP (fun x => applyOp op x t) : ℚ) / ((v :: vs).length : ℚ) ≤ 1 :=
      (div_le_one hlen).mpr hcount
    nlinarith

/-- `binMember` unfolded to a proposition. -/
lemma binMember_eq_true_iff (mn w : ℚ) (nb i : ℕ) (x : ℚ) :
    binMember mn w nb i x = true ↔
      (if i = nb - 1 then mn + (i:ℚ)*w ≤ x ∧ x ≤ mn + ((i:ℚ)+1)*w
       else mn + (i:ℚ)*w ≤ x ∧ x < mn + ((i:ℚ)+1)*w) := by
  unfold binMember
  by_cases h : i = nb - 1 <;> simp [h]

/-- Every value between the sample minimum and maximum satisfies the
membership test of exactly one of the `m + 1` bins. -/
lemma binMember_exists_unique (mn w : ℚ) (m : ℕ) (hw : 0 ≤ w)
    (x : ℚ) (hx1 : mn ≤ x) (hx2 : x ≤ mn + ((m:ℚ)+1) * w) :
    ∃ j, j ≤ m ∧ ∀ i, i ≤ m → (binMember mn w (m+1) i x = true ↔ i = j) := by
  have hnb : (m+1) - 1 = m := by omega
  rcases eq_or_lt_of_le hw with hw0 | hwpos
  · -- degenerate bins: only the last (closed) bin can match
    have hxeq : x = mn := by
      have : mn + ((m:ℚ)+1) * w = mn := by rw [← hw0]; ring
      rw [this] at hx2
      linarith
    refine ⟨m, le_refl m, ?_⟩
    intro i hi
    rw [binMember_eq_true_iff, hnb]
    by_cases hieq : i = m
    · subst hieq
      simp only [if_pos rfl]
      constructor
      · intro _; trivial
      · intro _
        constructor
        · rw [hxeq, ← hw0]; ring_nf; exact le_refl mn
        · rw [hxeq, ← hw0]; ring_nf; exact le_refl mn
    · simp only [if_neg hieq]
      constructor
      · rintro ⟨h1, h2⟩
        exfalso
        rw [hxeq, ← hw0] at h1 h2
        ring_nf at h1 h2
        exact absurd h2 (lt_irrefl mn)
      · intro hc; exact absurd hc hieq
  · by_cases hxlt : x < mn + (m:ℚ)*w
    · -- interior value: the unique bin is the floor of (x - mn)/w
      have hq0 : 0 ≤ (x - mn)/w := div_nonneg (by linarith) (le_of_lt hwpos)
      have hfl0 : 0 ≤ ⌊(x - mn)/w⌋ := Int.floor_nonneg.mpr hq0
      refine ⟨(⌊(x - mn)/w⌋).toNat, ?_, ?_⟩
      · -- the floor is below m
        have hqm : (x - mn)/w < (m:ℚ) := (div_lt_iff hwpos).mpr (by linarith)
        have : (⌊(x - mn)/w⌋ : ℚ) < (m:ℚ) := lt_of_le_of_lt (Int.floor_le _) hqm
        have hzm : ⌊(x - mn)/w⌋ < (m:ℤ) := by exact_mod_cast this
        omega
      · intro i hi
        have hjz : (((⌊(x - mn)/w⌋).toNat : ℤ)) = ⌊(x - mn)/w⌋ := Int.toNat_of_nonneg hfl0
        have hjq : (((⌊(x - mn)/w⌋).toNat : ℕ) : ℚ) ≤ (x - mn)/w := by
          have := Int.floor_le ((x - mn)/w)
          have hcast : (((⌊(x - mn)/w⌋).toNat : ℕ) : ℚ) = ((⌊(x - mn)/w⌋ : ℤ) : ℚ) := by
            exact_mod_cast hjz
          rw [hcast]
          exact this
        have hqlt : (x - mn)/w < (((⌊(x - mn)/w⌋).toNat : ℕ) : ℚ) + 1 := by
          have := Int.lt_floor_add_one ((x - mn)/w)
          have hcast : (((⌊(x - mn)/w⌋).toNat : ℕ) : ℚ) = ((⌊(x - mn)/w⌋ : ℤ) : ℚ) := by
            exact_mod_cast hjz
          rw [hcast]
          exact this
        have hb1 : mn + (((⌊(x - mn)/w⌋).toNat : ℕ) : ℚ)*w ≤ x := by
          have := mul_le_mul_of_nonneg_right hjq (le_of_lt hwpos)
          rw [div_mul_cancel₀ _ (ne_of_gt hwpos)] at this
          linarith
        have hb2 : x < mn + ((((⌊(x - mn)/w⌋).toNat : ℕ) : ℚ)+1)*w := by
          have := mul_lt_mul_of_pos_right hqlt hwpos
          rw [div_mul_cancel₀ _ (ne_of_gt hwpos)] at this
          linarith
        have hjm : (⌊(x - mn)/w⌋).toNat < m := by
          have hqm : (x - mn)/w < (m:ℚ) := (div_lt_iff hwpos).mpr (by linarith)
          have : (⌊(x - mn)/w⌋ : ℚ) < (m:ℚ) := lt_of_le_of_lt (Int.floor_le _) hqm
          have hzm : ⌊(x - mn)/w⌋ < (m:ℤ) := by exact_mod_cast this
          omega
        rw [binMember_eq_true_iff, hnb]
        by_cases hieq : i = m
        · subst hieq
          simp only [if_pos rfl]
          constructor
          · rintro ⟨h1, _⟩; exfalso; linarith
          · intro hc; exfalso; omega
        · simp only [if_neg hieq]
          constructor
          · rintro ⟨h1, h2⟩
            have hi1 : (i:ℚ) ≤ (x - mn)/w := (le_div_iff hwpos).mpr (by linarith)
            have hi2 : (x - mn)/w < (i:ℚ)+1 := (div_lt_iff hwpos).mpr (by linarith)
            have hfeq : ⌊(x - mn)/w⌋ = (i:ℤ) := by
              rw [Int.floor_eq_iff]
              constructor
              · exact_mod_cast hi1
              · push_cast
                exact hi2
            omega
          · rintro rfl
            exact ⟨hb1, hb2⟩
    · -- boundary value: only the last, closed, bin matches
      push_neg at hxlt
      refine ⟨m, le_refl m, ?_⟩
      intro i hi
      rw [binMember_eq_true_iff, hnb]
      by_cases hieq : i = m
      · subst hieq
        simp only [if_pos rfl]
        constructor
        · intro _; trivial
        · intro _; exact ⟨hxlt, hx2⟩
      · simp only [if_neg hieq]
        constructor
        · rintro ⟨h1, h2⟩
          exfalso
          have hi' : i < m := lt_of_le_of_ne hi hieq
          have hcast : ((i:ℚ)+1) ≤ (m:ℚ) := by exact_mod_cast hi'
          have : mn + ((i:ℚ)+1)*w ≤ mn + (m:ℚ)*w := by nlinarith
          linarith
        · intro hc; exact absurd hc hieq

/-- A predicate that holds on exactly one index below `m + 1` filters the
range to a singleton. -/
lemma filter_range_unique (m j : ℕ) (hj : j ≤ m) (p : ℕ → Bool)
    (hp : ∀ i, i ≤ m → (p i = true ↔ i = j)) :
    ((List.range (m+1)).filter p).length = 1 := by
  have h1 : (List.range (m+1)).filter p = (List.range (m+1)).filter (fun i => i == j) := by
    apply List.filter_congr
    intro i hi
    have hi' : i ≤ m := by
      have := List.mem_range.mp hi
      omega
    by_cases hij : i = j
    · subst hij
      have : p i = true := (hp i hi').mpr rfl
      simp [this]
    · have hpi : p i = false := by
        cases hpv : p i with
        | true => exact absurd ((hp i hi').mp hpv) hij
        | false => rfl
      simp [hpi, hij]
  rw [h1]
  have h2 : ((List.range (m+1)).filter (fun i => i == j)).length
      = (List.range (m+1)).count j := by
    rw [List.count, List.countP_eq_length_filter]
  rw [h2]
  exact List.count_eq_one_of_mem (List.nodup_range (m+1)) (List.mem_range.mpr (by omega))

/-- Sums of pointwise-added maps split. -/
lemma sum_map_add (l : List ℕ) (f g : ℕ → ℕ) :
    (l.map (fun i => f i + g i)).sum = (l.map f).sum + (l.map g).sum := by
  induction l with
  | nil => rfl
  | cons x xs ih =>
    simp only [List.map_cons, List.sum_cons, ih]
    omega

/-- Summing an indicator over a list counts the filtered elements. -/
lemma sum_map_ite_length (L : List ℕ) (p : ℕ → Bool) :
    (L.map (fun i => if p i then 1 else 0)).sum = (L.filter p).length := by
  induction L with
  | nil => rfl
  | cons x xs ih =>
    by_cases h : p x <;> simp [List.filter_cons, h, ih] <;> omega

/-- If every element lies in exactly one bin, the per-bin counts sum to
the number of elements. -/
lemma freq_sum (nb : ℕ) (p : ℕ → ℚ → Bool) :
    ∀ (l : List ℚ),
      (∀ x ∈ l, ((List.range nb).filter (fun i => p i x)).length = 1) →
      ((List.range nb).map (fun i => (l.filter (p i)).length)).sum = l.length := by
  intro l
  induction l with
  | nil => intro _; simp
  | cons x xs ih =>
    intro hl
    have hx := hl x (List.mem_cons_self x xs)
    have hxs : ∀ y ∈ xs, ((List.range nb).filter (fun i => p i y)).length = 1 :=
      fun y hy => hl y (List.mem_cons_of_mem x hy)
    have hsplit : ∀ i, ((x :: xs).filter (p i)).length
        = (if p i x then 1 else 0) + (xs.filter (p i)).length := by
      intro i
      by_cases hpi : p i x = true <;> simp [List.filter_cons, hpi] <;> omega
    simp only [hsplit]
    rw [sum_map_add, sum_map_ite_length, hx, ih hxs]
    simp only [List.length_cons]
    omega

/-- The mapped range of `m + 1` indices ends at the image of `m`. -/
lemma range_map_getLast {α : Type} (m : ℕ) (f : ℕ → α) :
    ((List.range (m+1)).map f).getLast? = some (f m) := by
  rw [List.range_succ, List.map_append]
  exact List.getLast?_concat _

/-- For `m + 1` bins over a non-empty sample, the bin total equals `m + 1`
times the bin width plus the minimum, i.e. the sample maximum. -/
lemma bins_cover (values : List ℚ) (hne : values ≠ []) (m : ℕ) :
    listMin values + ((m:ℚ)+1) * ((listMax values - listMin values) / ((m+1 : ℕ):ℚ))
      = listMax values := by
  have hq : ((m+1 : ℕ):ℚ) ≠ 0 := by positivity
  have hc : ((m+1 : ℕ):ℚ) = (m:ℚ) + 1 := by push_cast; ring
  rw [← hc]
  rw [mul_div_cancel₀ _ hq]
  ring

/-- The frequency counts over the `m + 1` bins of a non-empty sample sum
to the sample size. -/
lemma binned_freq_sum (values : List ℚ) (hne : values ≠ []) (m : ℕ) :
    ((List.range (m+1)).map (fun i =>
      (values.filter (binMember (listMin values)
        ((listMax values - listMin values) / ((m+1 : ℕ):ℚ)) (m+1) i)).length)).sum
      = values.length := by
  apply freq_sum
  intro x hx
  have h1 : listMin values ≤ x := listMin_le values x hx
  have h2 : x ≤ listMax values := le_listMax values x hx
  have hw0 : 0 ≤ (listMax values - listMin values) / ((m+1 : ℕ):ℚ) := by
    apply div_nonneg
    · linarith
    · positivity
  have hx2' : x ≤ listMin values
      + ((m:ℚ)+1) * ((listMax values - listMin values) / ((m+1 : ℕ):ℚ)) := by
    rw [bins_cover values hne m]
    exact h2
  obtain ⟨j, hj, hiff⟩ := binMember_exists_unique (listMin values)
    ((listMax values - listMin values) / ((m+1 : ℕ):ℚ)) m hw0 x h1 hx2'
  exact filter_range_unique m j hj _ (fun i hi => hiff i hi)

/-- Projection of the non-empty branch of `createDistributionData`:
the frequency list. -/
lemma createDistributionData_frequencies (v0 : ℚ) (vs : List ℚ) (t : ℚ) (v : String) :
    (createDistributionData (v0 :: vs) t v).frequencies
      = (List.range (min 20 (max 10 ((v0 :: vs).length / 5)))).map
          (fun i => ((v0 :: vs).filter
            (binMember (listMin (v0 :: vs))
              ((listMax (v0 :: vs) - listMin (v0 :: vs))
                / ((min 20 (max 10 ((v0 :: vs).length / 5)) : ℕ) : ℚ))
              (min 20 (max 10 ((v0 :: vs).length / 5))) i)).length) := rfl

/-- Projection of the non-empty branch of `createDistributionData`:
the bin list. -/
lemma createDistributionData_bins (v0 : ℚ) (vs : List ℚ) (t : ℚ) (v : String) :
    (createDistributionData (v0 :: vs) t v).bins
      = (List.range (min 20 (max 10 ((v0 :: vs).length / 5)))).map
          (fun i : ℕ =>
            HistBin.mk
              (listMin (v0 :: vs) + (i:ℚ) * ((listMax (v0 :: vs) - listMin (v0 :: vs))
                / ((min 20 (max 10 ((v0 :: vs).length / 5)) : ℕ) : ℚ)))
              (listMin (v0 :: vs) + ((i:ℚ)+1) * ((listMax (v0 :: vs) - listMin (v0 :: vs))
                / ((min 20 (max 10 ((v0 :: vs).length / 5)) : ℕ) : ℚ)))
              ((listMin (v0 :: vs) + (i:ℚ) * ((listMax (v0 :: vs) - listMin (v0 :: vs))
                / ((min 20 (max 10 ((v0 :: vs).length / 5)) : ℕ) : ℚ))
                + (listMin (v0 :: vs) + ((i:ℚ)+1) * ((listMax (v0 :: vs) - listMin (v0 :: vs))
                / ((min 20 (max 10 ((v0 :: vs).length / 5)) : ℕ) : ℚ)))) / 2)) := rfl

/-- The histogram frequencies of a non-empty sample sum to the sample
size. -/
lemma createDistributionData_freq_sum (values : List ℚ) (t : ℚ) (v : String)
    (hne : values ≠ []) :
    (createDistributionData values t v).frequencies.sum = values.length := by
  obtain ⟨v0, vs, rfl⟩ : ∃ v0 vs, values = v0 :: vs := by
    cases values with
    | nil => exact absurd rfl hne
    | cons a as => exact ⟨a, as, rfl⟩
  rw [createDistributionData_frequencies]
  obtain ⟨m, hm⟩ : ∃ m, min 20 (max 10 ((v0 :: vs).length / 5)) = m + 1 :=
    ⟨min 20 (max 10 ((v0 :: vs).length / 5)) - 1, by omega⟩
  rw [hm]
  exact binned_freq_sum (v0 :: vs) (List.cons_ne_nil v0 vs) m

/-- The last histogram bin of a non-empty sample exists and encloses the
sample maximum (its upper edge equals the maximum). -/
lemma createDistributionData_last_bin (values : List ℚ) (t : ℚ) (v : String)
    (hne : values ≠ []) :
    ∃ b : HistBin, (createDistributionData values t v).bins.getLast? = some b
      ∧ b.lo ≤ listMax values ∧ listMax values ≤ b.hi := by
  obtain ⟨v0, vs, rfl⟩ : ∃ v0 vs, values = v0 :: vs := by
    cases values with
    | nil => exact absurd rfl hne
    | cons a as => exact ⟨a, as, rfl⟩
  rw [createDistributionData_bins]
  obtain ⟨m, hm⟩ : ∃ m, min 20 (max 10 ((v0 :: vs).length / 5)) = m + 1 :=
    ⟨min 20 (max 10 ((v0 :: vs).length / 5)) - 1, by omega⟩
  rw [hm, range_map_getLast]
  refine ⟨_, rfl, ?_, ?_⟩
  · show listMin (v0 :: vs) + (m:ℚ) * ((listMax (v0 :: vs) - listMin (v0 :: vs))
        / ((m+1 : ℕ) : ℚ)) ≤ listMax (v0 :: vs)
    have hcover := bins_cover (v0 :: vs) (List.cons_ne_nil v0 vs) m
    have hmnx : listMin (v0 :: vs) ≤ listMax (v0 :: vs) :=
      le_trans (listMin_le _ v0 (List.mem_cons_self v0 vs))
        (le_listMax _ v0 (List.mem_cons_self v0 vs))
    have hw0 : 0 ≤ (listMax (v0 :: vs) - listMin (v0 :: vs)) / ((m+1 : ℕ) : ℚ) := by
      apply div_nonneg
      · linarith
      · positivity
    nlinarith
  · show listMax (v0 :: vs) ≤ listMin (v0 :: vs) + ((m:ℚ)+1)
        * ((listMax (v0 :: vs) - listMin (v0 :: vs)) / ((m+1 : ℕ) : ℚ))
    have hcover := bins_cover (v0 :: vs) (List.cons_ne_nil v0 vs) m
    linarith

/-- The last frequency of a non-empty sample's histogram counts the
sample maximum, so it is at least 1. -/
lemma createDistributionData_last_freq (values : List ℚ) (t : ℚ) (v : String)
    (hne : values ≠ []) :
    ∃ k, (createDistributionData values t v).frequencies.getLast? = some k ∧ 1 ≤ k := by
  obtain ⟨v0, vs, rfl⟩ : ∃ v0 vs, values = v0 :: vs := by
    cases values with
    | nil => exact absurd rfl hne
    | cons a as => exact ⟨a, as, rfl⟩
  rw [createDistributionData_frequencies]
  obtain ⟨m, hm⟩ : ∃ m, min 20 (max 10 ((v0 :: vs).length / 5)) = m + 1 :=
    ⟨min 20 (max 10 ((v0 :: vs).length / 5)) - 1, by omega⟩
  rw [hm, range_map_getLast]
  refine ⟨_, rfl, ?_⟩
  have hcover := bins_cover (v0 :: vs) (List.cons_ne_nil v0 vs) m
  have hmnx : listMin (v0 :: vs) ≤ listMax (v0 :: vs) :=
    le_trans (listMin_le _ v0 (List.mem_cons_self v0 vs))
      (le_listMax _ v0 (List.mem_cons_self v0 vs))
  have hw0 : 0 ≤ (listMax (v0 :: vs) - listMin (v0 :: vs)) / ((m+1 : ℕ) : ℚ) := by
    apply div_nonneg
    · linarith
    · positivity
  have hpred : binMember (listMin (v0 :: vs))
      ((listMax (v0 :: vs) - listMin (v0 :: vs)) / ((m+1 : ℕ) : ℚ))
      (m+1) m (listMax (v0 :: vs)) = true := by
    rw [binMember_eq_true_iff]
    have hlast : m = (m+1) - 1 := by omega
    rw [if_pos hlast]
    constructor
    · nlinarith
    · linarith
  have hmem : listMax (v0 :: vs) ∈ (v0 :: vs).filter
      (binMember (listMin (v0 :: vs))
        ((listMax (v0 :: vs) - listMin (v0 :: vs)) / ((m+1 : ℕ) : ℚ)) (m+1) m) :=
    List.mem_filter.mpr ⟨listMax_mem (v0 :: vs) (List.cons_ne_nil v0 vs), hpred⟩
  have hpos := List.length_pos.mpr (List.ne_nil_of_mem hmem)
  omega

/-- `calculateProbability` on a non-empty list throws for an unrecognized
variable, at the first value checked. -/
lemma calculateProbability_unknown (values : List ℚ) (t : ℚ) (v : String)
    (h : operators v = none) (hne : values ≠ []) :
    calculateProbability values t v = .error ("Unknown operator for variable: " ++ v) := by
  cases values with
  | nil => exact absurd rfl hne
  | cons x xs =>
    unfold calculateProbability
    simp only [List.isEmpty_cons, Bool.false_eq_true, if_false]
    have hc : checkAdverseCondition x t v = .error ("Unknown operator for variable: " ++ v) := by
      unfold checkAdverseCondition
      rw [h]
    show (((x :: xs).foldlM (fun acc value => do
        let isAdverse ← checkAdverseCondition value t v
        pure (if isAdverse then acc + 1 else acc)) (0 : ℕ) : Except String ℕ) >>= fun adverseCount =>
        pure (((adverseCount : ℚ) / ((x :: xs).length : ℚ)) * 100))
      = .error ("Unknown operator for variable: " ++ v)
    rw [List.foldlM_cons, hc]
    rfl

/-- `calculateStatistics` on a non-empty sample with an unrecognized
variable throws before the sort, leaving the caller's array unchanged. -/
lemma calculateStatistics_unknown (data : List StatRecord) (t : ℚ) (v : String)
    (h : operators v = none) (hne : data ≠ []) :
    calculateStatistics data t v
      = (.error ("Unknown operator for variable: " ++ v), data) := by
  have hne' : data.isEmpty = false := by
    cases data with
    | nil => exact absurd rfl hne
    | cons x xs => rfl
  have hvals : data.map (·.value) ≠ [] := by
    cases data with
    | nil => exact absurd rfl hne
    | cons x xs => exact List.cons_ne_nil _ _
  unfold calculateStatistics
  rw [hne']
  simp only [Bool.false_eq_true, if_false]
  rw [calculateProbability_unknown (data.map (·.value)) t v h hvals]

/-- `checkAdverseConditionDyn` succeeds for every recognized variable. -/
lemma checkAdverseConditionDyn_ok (value th : JVal) (v : String) (op : AdverseOp)
    (h : operators v = some op) :
    ∃ b, checkAdverseConditionDyn value th v = .ok b := by
  unfold checkAdverseConditionDyn
  rw [h]
  cases op with
  | ge => exact ⟨_, rfl⟩
  | le => exact ⟨_, rfl⟩

/-- The dynamic adverse-count fold succeeds for a recognized variable. -/
lemma foldCountDyn_ok (th : JVal) (v : String) (op : AdverseOp)
    (h : operators v = some op) :
    ∀ (l : List JVal) (acc : ℕ), ∃ n,
      (l.foldlM (fun acc value => do
        let isAdverse ← checkAdverseConditionDyn value th v
        pure (if isAdverse then acc + 1 else acc)) acc : Except String ℕ) = .ok n := by
  intro l
  induction l with
  | nil => intro acc; exact ⟨acc, rfl⟩
  | cons x xs ih =>
    intro acc
    obtain ⟨b, hb⟩ := checkAdverseConditionDyn_ok x th v op h
    obtain ⟨n, hn⟩ := ih (if b then acc + 1 else acc)
    refine ⟨n, ?_⟩
    rw [List.foldlM_cons, hb]
    show (xs.foldlM (fun acc value => do
        let isAdverse ← checkAdverseConditionDyn value th v
        pure (if isAdverse then acc + 1 else acc)) (if b then acc + 1 else acc) : Except String ℕ) = .ok n
    exact hn

/-- `calculateProbabilityDyn` succeeds for every recognized variable,
whatever the threshold and values are. -/
lemma calculateProbabilityDyn_ok (values : List JVal) (th : JVal) (v : String)
    (op : AdverseOp) (h : operators v = some op) :
    ∃ q, calculateProbabilityDyn values th v = .ok q := by
  cases values with
  | nil => exact ⟨0, rfl⟩
  | cons x xs =>
    obtain ⟨n, hn⟩ := foldCountDyn_ok th v op h (x :: xs) 0
    refine ⟨((n : ℚ) / ((x :: xs).length : ℚ)) * 100, ?_⟩
    unfold calculateProbabilityDyn
    simp only [List.isEmpty_cons, Bool.false_eq_true, if_false]
    rw [show ∀ f : ℕ → Except String ℚ,
        (((x :: xs).foldlM (fun acc value => do
          let isAdverse ← checkAdverseConditionDyn value th v
          pure (if isAdverse then acc + 1 else acc)) (0 : ℕ) : Except String ℕ) >>= f)
        = f n from fun f => by rw [hn]; rfl]
    rfl

/-- `calculateProbabilityDyn` on a non-empty list throws for an
unrecognized variable. -/
lemma calculateProbabilityDyn_unknown (values : List JVal) (th : JVal) (v : String)
    (h : operators v = none) (hne : values ≠ []) :
    calculateProbabilityDyn values th v
      = .error ("Unknown operator for variable: " ++ v) := by
  cases values with
  | nil => exact absurd rfl hne
  | cons x xs =>
    unfold calculateProbabilityDyn
    simp only [List.isEmpty_cons, Bool.false_eq_true, if_false]
    have hc : checkAdverseConditionDyn x th v
        = .error ("Unknown operator for variable: " ++ v) := by
      unfold checkAdverseConditionDyn
      rw [h]
    show (((x :: xs).foldlM (fun acc value => do
        let isAdverse ← checkAdverseConditionDyn value th v
        pure (if isAdverse then acc + 1 else acc)) (0 : ℕ) : Except String ℕ) >>= fun adverseCount =>
        pure (((adverseCount : ℚ) / ((x :: xs).length : ℚ)) * 100))
      = .error ("Unknown operator for variable: " ++ v)
    rw [List.foldlM_cons, hc]
    rfl

/-- `calculateTrendAnalysisDyn` succeeds for every recognized variable. -/
lemma calculateTrendAnalysisDyn_ok (data : List DynRecord) (th : JVal) (v : String)
    (op : AdverseOp) (h : operators v = some op) :
    ∃ r, calculateTrendAnalysisDyn data th v
      = (.ok r, if data.length < 10 then data else sortByYearDyn data) := by
  by_cases hlen : data.length < 10
  · refine ⟨⟨0, "Insufficient data for trend analysis"⟩, ?_⟩
    unfold calculateTrendAnalysisDyn
    simp [hlen]
  · obtain ⟨pe, hpe⟩ := calculateProbabilityDyn_ok
      (((sortByYearDyn data).take ((sortByYearDyn data).length / 2)).map (·.value)) th v op h
    obtain ⟨pr, hpr⟩ := calculateProbabilityDyn_ok
      (((sortByYearDyn data).drop ((sortByYearDyn data).length / 2)).map (·.value)) th v op h
    unfold calculateTrendAnalysisDyn
    simp only [if_neg hlen, hpe, hpr]
    exact ⟨_, rfl⟩

/-- `calculateStatisticsDyn` succeeds on any non-empty sample with a
recognized variable — no matter whether the threshold or the sample
values are numbers. -/
lemma calculateStatisticsDyn_ok (data : List DynRecord) (th : JVal) (v : String)
    (op : AdverseOp) (h : operators v = some op) (hne : data ≠ []) :
    ∃ r post, calculateStatisticsDyn data th v = (.ok r, post) := by
  obtain ⟨p, hp⟩ := calculateProbabilityDyn_ok (data.map (·.value)) th v op h
  obtain ⟨tr, htr⟩ := calculateTrendAnalysisDyn_ok data th v op h
  have hne' : data.isEmpty = false := by
    cases data with
    | nil => exact absurd rfl hne
    | cons x xs => rfl
  unfold calculateStatisticsDyn
  simp only [hne', Bool.false_eq_true, if_false, hp, htr]
  exact ⟨_, _, rfl⟩

/-- `calculateStatisticsDyn` on a non-empty sample with an unrecognized
variable throws. -/
lemma calculateStatisticsDyn_unknown (data : List DynRecord) (th : JVal) (v : String)
    (h : operators v = none) (hne : data ≠ []) :
    (calculateStatisticsDyn data th v).1
      = .error ("Unknown operator for variable: " ++ v) := by
  have hne' : data.isEmpty = false := by
    cases data with
    | nil => exact absurd rfl hne
    | cons x xs => rfl
  have hvals : data.map (·.value) ≠ [] := by
    cases data with
    | nil => exact absurd rfl hne
    | cons x xs => exact List.cons_ne_nil _ _
  unfold calculateStatisticsDyn
  rw [hne']
  simp only [Bool.false_eq_true, if_false]
  rw [calculateProbabilityDyn_unknown (data.map (·.value)) th v h hvals]

/-- A precipitation (or wind) data row with enough columns, a truthy
timestamp and a numeric value is kept exactly when the value differs
from the sentinel `-9999`. -/
lemma precipRowAccepted_iff (ti pi : ℕ) (cols : List String) (q : ℚ)
    (hlen : max ti pi + 1 ≤ cols.length)
    (hts : cols.getD ti "" ≠ "")
    (hq : parseFloatM (cols.getD pi "") = some q) :
    precipRowAccepted ti pi cols = true ↔ q ≠ -9999 := by
  unfold precipRowAccepted
  rw [if_neg (by omega : ¬ cols.length < max ti pi + 1), hq]
  have hts' : cols[ti]?.getD "" ≠ "" := by
    simpa [List.getD] using hts
  simp [hts']

/-- A humidity data row that passes the metadata filters, with a numeric
value in its second column, is kept exactly when the value passes the
range check `value > -9999`. -/
lemma humidityRowAccepted_iff (ts val : String) (rest : List String) (q : ℚ)
    (h1 : ts ≠ "") (h2 : containsStr ts "time" = false)
    (h3 : containsStr ts "Title:" = false) (h4 : containsStr ts "User" = false)
    (h5 : containsStr ts "Data" = false) (h6 : containsStr ts "URL" = false)
    (h7 : containsStr ts "Fill Value" = false) (h8 : 8 < ts.length)
    (hq : parseFloatM val = some q) :
    humidityRowAccepted (ts :: val :: rest) = true ↔ q > -9999 := by
  unfold humidityRowAccepted
  simp [h1, h2, h3, h4, h5, h6, h7, h8, hq]

/-- A loaded range query over an inverted interval iterates zero days. -/
lemma getPrecipitationRange_inverted (store : ℤ → Option (List RawReading))
    (startDate endDate : ℤ) (h : endDate < startDate) :
    getPrecipitationRange true store startDate endDate = .ok [] := by
  unfold getPrecipitationRange
  have hz : (endDate + 1 - startDate).toNat = 0 := by omega
  simp [hz]

/-- Same for the wind processor. -/
lemma getWindSpeedRange_inverted (store : ℤ → Option (List RawReading))
    (startDate endDate : ℤ) (h : endDate < startDate) :
    getWindSpeedRange true store startDate endDate = .ok [] := by
  unfold getWindSpeedRange
  have hz : (endDate + 1 - startDate).toNat = 0 := by omega
  simp [hz]

/-! ## Claims -/

/-- C1 (counterexample): for the empty sample, `calculateStatistics`
throws "No historical data available for analysis" instead of returning
`probabilityPercent = 0` and `mean = 0`. -/
theorem empty_sample_throws_cex :
    (calculateStatistics [] 0 "precipitation").1
      = .error "No historical data available for analysis" := by
  decide

/-- C1 (amended): for an empty sample, `calculateStatistics` throws
"No historical data available for analysis" (leaving the sample
untouched); the inner helpers `calculateProbability` and `calculateMean`
do return 0 on an empty list. -/
theorem empty_sample_behavior (t : ℚ) (v : String) :
    calculateStatistics [] t v
        = (.error "No historical data available for analysis", [])
    ∧ calculateProbability [] t v = .ok 0
    ∧ calculateMean [] = 0 :=
  ⟨rfl, rfl, rfl⟩

/-- C9 (counterexample): `calculateStatistics` reorders the caller's
sample array: called on a 10-element sample with descending years, the
array afterwards differs from the array before (it has been sorted by
year in place). -/
theorem sample_mutation_cex :
    (calculateStatistics exSampleUnsorted 0 "precipitation").2 ≠ exSampleUnsorted := by
  decide

/-- C7 (counterexample): a loaded range query with `startDate > endDate`
returns `ok []` — it does not fail with any error — even though data
exists at the end date. -/
theorem range_query_inverted_cex :
    getPrecipitationRange true exStore 5 3 = .ok []
    ∧ (exStore 3).isSome = true := by
  constructor
  · decide
  · decide

/-- C5 (counterexample): on a sample whose range is 0 (three equal
values), the histogram still has `clamp(floor(N/5), 10, 20) = 10` bins,
not the single bin the claim requires. -/
theorem histogram_single_bin_cex :
    (createDistributionData [5, 5, 5] 0 "precipitation").bins.length = 10
    ∧ listMax [5, 5, 5] - listMin [5, 5, 5] = 0 := by
  constructor
  · decide
  · norm_num [listMax, listMin]

/-- C10: for every store and date, the per-date aggregate query throws
"... data not loaded" while the processor's loaded flag is false, and
once the flag is set it never throws: it returns `ok` of either a daily
aggregate or `none` (JS `null`), for both the precipitation and the wind
speed processor. -/
theorem per_date_query_loading_gate (store₁ store₂ : ℤ → Option (List RawReading))
    (date : ℤ) :
    getPrecipitationForDate false store₁ date = .error "Precipitation data not loaded"
    ∧ (∃ o, getPrecipitationForDate true store₁ date = .ok o)
    ∧ getWindSpeedForDate false store₂ date = .error "Wind speed data not loaded"
    ∧ (∃ o, getWindSpeedForDate true store₂ date = .ok o) := by
  refine ⟨rfl, ?_, rfl, ?_⟩
  · cases hres : getPrecipitationForDate true store₁ date with
    | ok o => exact ⟨o, rfl⟩
    | error e =>
      exfalso
      unfold getPrecipitationForDate at hres
      cases hstore : store₁ date with
      | none => rw [hstore] at hres; simp at hres
      | some l =>
        cases l with
        | nil => rw [hstore] at hres; simp at hres
        | cons r rs => rw [hstore] at hres; simp at hres
  · cases hres : getWindSpeedForDate true store₂ date with
    | ok o => exact ⟨o, rfl⟩
    | error e =>
      exfalso
      unfold getWindSpeedForDate at hres
      cases hstore : store₂ date with
      | none => rw [hstore] at hres; simp at hres
      | some l =>
        cases l with
        | nil => rw [hstore] at hres; simp at hres
        | cons r rs => rw [hstore] at hres; simp at hres

/-- A successful `calculateStatistics` run, exposing only the
`probability` field. -/
lemma calculateStatistics_fields (data : List StatRecord) (t : ℚ) (v : String)
    (op : AdverseOp) (h : operators v = some op) (hne : data ≠ []) :
    ∃ res post, calculateStatistics data t v = (.ok res, post)
      ∧ res.probability = round2 (exceedanceProbabilitySpec (data.map (·.value)) t op) := by
  have hne' : data.isEmpty = false := by
    cases data with
    | nil => exact absurd rfl hne
    | cons x xs => rfl
  unfold calculateStatistics
  simp only [hne', Bool.false_eq_true, if_false,
    calculateProbability_ok (data.map (·.value)) t v op h,
    calculateTrendAnalysis_ok data t v op h]
  exact ⟨_, _, rfl, rfl⟩

set_option maxHeartbeats 4000000 in
/-- C2: for every non-empty sample, numeric threshold and recognized
variable, `calculateStatistics` succeeds and its `probability` equals
the count of values satisfying the adverse operator against the
threshold, divided by N, times 100, rounded to 2 decimal places — and
that probability lies between 0 and 100. -/
theorem probability_formula_and_bounds (data : List StatRecord) (t : ℚ)
    (v : String) (op : AdverseOp) (h : operators v = some op) (hne : data ≠ []) :
    ∃ res post, calculateStatistics data t v = (.ok res, post)
      ∧ res.probability
          = round2 ((((data.map (·.value)).countP (fun x => applyOp op x t) : ℚ)
              / ((data.map (·.value)).length : ℚ)) * 100)
      ∧ 0 ≤ res.probability ∧ res.probability ≤ 100 := by
  have h0 : 0 ≤ round2 (exceedanceProbabilitySpec (data.map (·.value)) t op) := by
    apply round2_nonneg
    apply exceedanceProbabilitySpec_nonneg
  have h100 : round2 (exceedanceProbabilitySpec (data.map (·.value)) t op) ≤ 100 := by
    apply round2_le_100
    apply exceedanceProbabilitySpec_le_100
  have hforma : round2 (exceedanceProbabilitySpec (data.map (·.value)) t op)
      = round2 ((((data.map (·.value)).countP (fun x => applyOp op x t) : ℚ)
          / ((data.map (·.value)).length : ℚ)) * 100) := rfl
  obtain ⟨res, post, heq, hprob⟩ := calculateStatistics_fields data t v op h hne
  refine ⟨res, post, heq, hprob.trans hforma, ?_, ?_⟩
  · rw [hprob]
    exact h0
  · rw [hprob]
    exact h100

/-- Witness for C2 at the specification's worked example (threshold 55
over values 10..100). -/
theorem probability_formula_and_bounds_witness :
    operators "precipitation" = some AdverseOp.ge ∧ exSample ≠ [] ∧
    (∃ res post, calculateStatistics exSample 55 "precipitation" = (.ok res, post)
      ∧ res.probability
          = round2 ((((exSample.map (·.value)).countP (fun x => applyOp .ge x 55) : ℚ)
              / ((exSample.map (·.value)).length : ℚ)) * 100)
      ∧ 0 ≤ res.probability ∧ res.probability ≤ 100) :=
  ⟨rfl, by decide,
   probability_formula_and_bounds exSample 55 "precipitation" .ge rfl (by decide)⟩

/-- C3: for every sample, threshold and recognized variable, the trend
analysis of the source equals the reference trend analysis written from
the specification: below 10 samples it reports insufficient data with a
change of 0; otherwise it sorts by year, splits at `⌊N/2⌋` (extra
element to the recent half), computes each half's exceedance probability
with the same operator and threshold, subtracts, and produces the
three-branch description embedding both year ranges and both
half-probabilities to one decimal place. -/
theorem trend_analysis_matches_reference (data : List StatRecord) (t : ℚ)
    (v : String) (op : AdverseOp) (h : operators v = some op) :
    (calculateTrendAnalysis data t v).1 = .ok (trendAnalysisSpec data t op) := by
  rw [calculateTrendAnalysis_ok data t v op h]

/-- Witness for C3 at the specification's worked example. -/
theorem trend_analysis_matches_reference_witness :
    operators "precipitation" = some AdverseOp.ge ∧
    (calculateTrendAnalysis exSample 55 "precipitation").1
      = .ok (trendAnalysisSpec exSample 55 .ge) :=
  ⟨rfl, trend_analysis_matches_reference exSample 55 "precipitation" .ge rfl⟩

/-- C4: for every non-empty sample, the histogram's frequencies sum to
exactly N; the last bin exists, its closed interval encloses the sample
maximum, and its frequency counts the maximum (it is at least 1). -/
theorem histogram_sum_and_max_in_last_bin (values : List ℚ) (t : ℚ) (v : String)
    (hne : values ≠ []) :
    (createDistributionData values t v).frequencies.sum = values.length
    ∧ (∃ b, (createDistributionData values t v).bins.getLast? = some b
        ∧ b.lo ≤ listMax values ∧ listMax values ≤ b.hi)
    ∧ (∃ k, (createDistributionData values t v).frequencies.getLast? = some k ∧ 1 ≤ k) :=
  ⟨createDistributionData_freq_sum values t v hne,
   createDistributionData_last_bin values t v hne,
   createDistributionData_last_freq values t v hne⟩

/-- Witness for C4 on a small concrete sample. -/
theorem histogram_sum_and_max_in_last_bin_witness :
    ([5, 5, 5] : List ℚ) ≠ [] ∧
    ((createDistributionData [5, 5, 5] 0 "precipitation").frequencies.sum = 3
    ∧ (∃ b, (createDistributionData [5, 5, 5] 0 "precipitation").bins.getLast? = some b
        ∧ b.lo ≤ listMax [5, 5, 5] ∧ listMax [5, 5, 5] ≤ b.hi)
    ∧ (∃ k, (createDistributionData [5, 5, 5] 0 "precipitation").frequencies.getLast? = some k
        ∧ 1 ≤ k)) :=
  ⟨by decide, histogram_sum_and_max_in_last_bin [5, 5, 5] 0 "precipitation" (by decide)⟩

/-- C5 (amended): for every non-empty sample the histogram's bin count is
`clamp(floor(N/5), 10, 20)` and the bin width is `range / binCount` —
with no special case for a zero range: a constant sample still gets the
full clamped number of (degenerate) bins. -/
theorem histogram_bin_count_and_width (values : List ℚ) (t : ℚ) (v : String)
    (hne : values ≠ []) :
    (createDistributionData values t v).bins.length = min 20 (max 10 (values.length / 5))
    ∧ (∃ meta, (createDistributionData values t v).metadata = some meta
        ∧ meta.binWidth = (listMax values - listMin values)
            / ((min 20 (max 10 (values.length / 5)) : ℕ) : ℚ)) := by
  obtain ⟨v0, vs, rfl⟩ : ∃ v0 vs, values = v0 :: vs := by
    cases values with
    | nil => exact absurd rfl hne
    | cons a as => exact ⟨a, as, rfl⟩
  constructor
  · rw [createDistributionData_bins]
    simp
  · exact ⟨_, rfl, rfl⟩

/-- Witness for the amended C5 on a constant sample. -/
theorem histogram_bin_count_and_width_witness :
    ([5, 5, 5] : List ℚ) ≠ [] ∧
    ((createDistributionData [5, 5, 5] 0 "precipitation").bins.length
        = min 20 (max 10 (([5, 5, 5] : List ℚ).length / 5))
    ∧ (∃ meta, (createDistributionData [5, 5, 5] 0 "precipitation").metadata = some meta
        ∧ meta.binWidth = (listMax [5, 5, 5] - listMin [5, 5, 5])
            / ((min 20 (max 10 (([5, 5, 5] : List ℚ).length / 5)) : ℕ) : ℚ))) :=
  ⟨by decide, histogram_bin_count_and_width [5, 5, 5] 0 "precipitation" (by decide)⟩

/-- C7 (amended): for every loaded store and every pair of dates with
`startDate > endDate`, the range queries of both processors return the
empty sequence `ok []` — silently, with no `InvalidRangeError`. -/
theorem range_query_inverted_empty (store₁ store₂ : ℤ → Option (List RawReading))
    (startDate endDate : ℤ) (h : endDate < startDate) :
    getPrecipitationRange true store₁ startDate endDate = .ok []
    ∧ getWindSpeedRange true store₂ startDate endDate = .ok [] :=
  ⟨getPrecipitationRange_inverted store₁ startDate endDate h,
   getWindSpeedRange_inverted store₂ startDate endDate h⟩

/-- Witness for the amended C7 at the concrete inverted range 5 > 3. -/
theorem range_query_inverted_empty_witness :
    ((3:ℤ) < 5) ∧
    (getPrecipitationRange true exStore 5 3 = .ok []
      ∧ getWindSpeedRange true exStore 5 3 = .ok []) :=
  ⟨by decide, range_query_inverted_empty exStore exStore 5 3 (by decide)⟩

/-- C9 (amended): `calculateStatistics` is deterministic in its result,
but it is not frame-preserving: when the sample has fewer than 10
elements the caller's array is untouched, and when the variable is
recognized and the sample has at least 10 elements the caller's array is
afterwards sorted by year ascending (a permutation of — generally
different from — its original order). -/
theorem statistics_mutation_and_determinism (data : List StatRecord) (t : ℚ)
    (v : String) :
    (data.length < 10 → (calculateStatistics data t v).2 = data)
    ∧ (∀ op : AdverseOp, operators v = some op → 10 ≤ data.length →
        (calculateStatistics data t v).2 = sortByYear data
        ∧ (sortByYear data).Perm data) := by
  constructor
  · intro hlen
    cases data with
    | nil => rfl
    | cons x xs =>
      cases hop : operators v with
      | none =>
        rw [calculateStatistics_unknown (x :: xs) t v hop (List.cons_ne_nil x xs)]
      | some op =>
        rw [calculateStatistics_eq (x :: xs) t v op hop (List.cons_ne_nil x xs)]
        show (if (x :: xs).length < 10 then (x :: xs) else sortByYear (x :: xs)) = x :: xs
        exact if_pos hlen
  · intro op hop hlen
    have hne : data ≠ [] := by
      intro hd
      rw [hd] at hlen
      simp at hlen
    rw [calculateStatistics_eq data t v op hop hne]
    constructor
    · show (if data.length < 10 then data else sortByYear data) = sortByYear data
      exact if_neg (Nat.not_lt.mpr hlen)
    · exact sortByYear_perm data

/-- Witness for the amended C9: a short sample is untouched, and the
10-element descending sample ends up sorted (a permutation). -/
theorem statistics_mutation_and_determinism_witness :
    (([⟨2014, 10⟩] : List StatRecord).length < 10
      ∧ (calculateStatistics [⟨2014, 10⟩] 0 "precipitation").2 = [⟨2014, 10⟩])
    ∧ (operators "precipitation" = some AdverseOp.ge
      ∧ 10 ≤ exSampleUnsorted.length
      ∧ ((calculateStatistics exSampleUnsorted 0 "precipitation").2 = sortByYear exSampleUnsorted
        ∧ (sortByYear exSampleUnsorted).Perm exSampleUnsorted)) :=
  ⟨⟨by decide,
    (statistics_mutation_and_determinism [⟨2014, 10⟩] 0 "precipitation").1 (by decide)⟩,
   ⟨rfl, by decide,
    (statistics_mutation_and_determinism exSampleUnsorted 0 "precipitation").2
      .ge rfl (by decide)⟩⟩

/-- C6 (counterexample): the humidity loader discards a legitimate
numeric value below the sentinel: a row with value -10000 (which parses
as a number and differs from -9999) is skipped by `loadHumidityData`'s
range check, while the precipitation loader's exact-equality check keeps
the same row. -/
theorem sentinel_range_check_cex :
    humidityRowAccepted ["2020-01-01 00:00", "-10000"] = false
    ∧ parseFloatM "-10000" = some (-10000)
    ∧ ((-10000 : ℚ) ≠ -9999)
    ∧ precipRowAccepted 0 1 ["2020-01-01 00:00", "-10000"] = true := by
  refine ⟨by decide, by decide, by decide, by decide⟩

/-- C6 (amended): the precipitation (and wind) loaders skip a numeric
data row exactly when its value equals -9999 by exact equality — so a
row with value -9999 is not counted, rows with value 0 and -10000 are
counted — but the humidity loader instead applies the range check
`value > -9999`, so it also discards every legitimate value below the
sentinel. -/
theorem sentinel_handling :
    (∀ (ti pi : ℕ) (cols : List String) (q : ℚ),
        max ti pi + 1 ≤ cols.length → cols.getD ti "" ≠ "" →
        parseFloatM (cols.getD pi "") = some q →
        (precipRowAccepted ti pi cols = true ↔ q ≠ -9999))
    ∧ precipReadingCount 0 1
        [["2020-01-01 00:00", "-9999"], ["2020-01-01 03:00", "0"],
         ["2020-01-01 06:00", "-10000"]] = 2
    ∧ (∀ (ts val : String) (rest : List String) (q : ℚ),
        ts ≠ "" → containsStr ts "time" = false → containsStr ts "Title:" = false →
        containsStr ts "User" = false → containsStr ts "Data" = false →
        containsStr ts "URL" = false → containsStr ts "Fill Value" = false →
        8 < ts.length → parseFloatM val = some q →
        (humidityRowAccepted (ts :: val :: rest) = true ↔ q > -9999)) :=
  ⟨precipRowAccepted_iff, by decide, humidityRowAccepted_iff⟩

/-- Witness for the amended C6: concrete precipitation and humidity rows
with values 0 and 50. -/
theorem sentinel_handling_witness :
    (max 0 1 + 1 ≤ (["2020-01-01 00:00", "0"] : List String).length
      ∧ (["2020-01-01 00:00", "0"] : List String).getD 0 "" ≠ ""
      ∧ parseFloatM ((["2020-01-01 00:00", "0"] : List String).getD 1 "") = some 0
      ∧ (precipRowAccepted 0 1 ["2020-01-01 00:00", "0"] = true ↔ (0:ℚ) ≠ -9999))
    ∧ (("2020-01-01 00:00" : String) ≠ ""
      ∧ parseFloatM "50" = some 50
      ∧ (humidityRowAccepted ["2020-01-01 00:00", "50"] = true ↔ (50:ℚ) > -9999)) := by
  obtain ⟨hp, _, hh⟩ := sentinel_handling
  exact ⟨⟨by decide, by decide, by decide,
          hp 0 1 ["2020-01-01 00:00", "0"] 0 (by decide) (by decide) (by decide)⟩,
         ⟨by decide, by decide,
          hh "2020-01-01 00:00" "50" [] 50 (by decide) (by decide) (by decide)
            (by decide) (by decide) (by decide) (by decide) (by decide) (by decide)⟩⟩

/-- C8 (counterexample): `calculateStatistics` does not fail on caller
input it is claimed to reject: with a non-numeric threshold, and with a
sample element lacking a numeric value, it returns a result instead of
surfacing an error. -/
theorem validation_not_performed_cex :
    exceptIsOk (calculateStatisticsDyn [⟨some 2020, some 5⟩] none "precipitation").1 = true
    ∧ exceptIsOk (calculateStatisticsDyn [⟨some 2020, none⟩] (some 10) "precipitation").1 = true :=
  ⟨by decide, by decide⟩

/-- C8 (amended): of the three claimed `InvalidInputError` cases,
`calculateStatistics` itself throws only for an unrecognized variable
(on a non-empty sample); with a recognized variable it returns a result
for any threshold and any sample values, numeric or not.  All three
checks exist only in `validateStatisticalInputs` — which throws for a
non-numeric threshold, an unrecognized variable id, and a non-numeric
sample element, in that order — but no caller in the repository invokes
it. -/
theorem input_error_behavior :
    (∀ (data : List DynRecord) (th : JVal) (v : String),
        operators v = none → data ≠ [] →
        (calculateStatisticsDyn data th v).1
          = .error ("Unknown operator for variable: " ++ v))
    ∧ (∀ (data : List DynRecord) (th : JVal) (v : String) (op : AdverseOp),
        operators v = some op → data ≠ [] →
        ∃ r post, calculateStatisticsDyn data th v = (.ok r, post))
    ∧ (∀ (data : List DynRecord) (v : String), data ≠ [] →
        validateStatisticalInputs data none v
          = .error "Invalid threshold: must be a number")
    ∧ (∀ (data : List DynRecord) (q : ℚ) (v : String), data ≠ [] →
        validVariables.contains v = false →
        validateStatisticalInputs data (some q) v
          = .error ("Invalid variable: must be one of "
              ++ String.intercalate ", " validVariables))
    ∧ (∀ (data : List DynRecord) (q : ℚ) (v : String), data ≠ [] →
        validVariables.contains v = true →
        (data.all fun record => record.value.isSome && record.year.isSome) = false →
        validateStatisticalInputs data (some q) v
          = .error "Invalid data structure: each record must have numeric value and year properties") := by
  refine ⟨?_, ?_, ?_, ?_, ?_⟩
  · intro data th v h hne
    exact calculateStatisticsDyn_unknown data th v h hne
  · intro data th v op h hne
    exact calculateStatisticsDyn_ok data th v op h hne
  · intro data v hne
    have hne' : data.isEmpty = false := by
      cases data with
      | nil => exact absurd rfl hne
      | cons x xs => rfl
    unfold validateStatisticalInputs
    simp [hne']
  · intro data q v hne hv
    have hne' : data.isEmpty = false := by
      cases data with
      | nil => exact absurd rfl hne
      | cons x xs => rfl
    have hv' : ¬ v ∈ validVariables := by simpa using hv
    unfold validateStatisticalInputs
    simp [hne', hv']
  · intro data q v hne hv hall
    have hne' : data.isEmpty = false := by
      cases data with
      | nil => exact absurd rfl hne
      | cons x xs => rfl
    have hv' : v ∈ validVariables := by simpa using hv
    have hall' := by simpa using hall
    unfold validateStatisticalInputs
    simp [hne', hv', hall']

/-- Witness for the amended C8 at concrete inputs, including the
unrecognized id "humidity" (accepted by the HTTP schema but absent from
the operators table). -/
theorem input_error_behavior_witness :
    (operators "humidity" = none ∧ ([⟨some 2020, some 5⟩] : List DynRecord) ≠ []
      ∧ (calculateStatisticsDyn [⟨some 2020, some 5⟩] (some 10) "humidity").1
          = .error ("Unknown operator for variable: " ++ "humidity"))
    ∧ (operators "precipitation" = some AdverseOp.ge
      ∧ (∃ r post, calculateStatisticsDyn [⟨some 2020, some 5⟩] none "precipitation"
          = (.ok r, post)))
    ∧ validateStatisticalInputs [⟨some 2020, some 5⟩] none "precipitation"
        = .error "Invalid threshold: must be a number"
    ∧ validateStatisticalInputs [⟨some 2020, some 5⟩] (some 10) "humidity"
        = .error ("Invalid variable: must be one of "
            ++ String.intercalate ", " validVariables)
    ∧ validateStatisticalInputs [⟨some 2020, none⟩] (some 10) "precipitation"
        = .error "Invalid data structure: each record must have numeric value and year properties" := by
  obtain ⟨h1, h2, h3, h4, h5⟩ := input_error_behavior
  exact ⟨⟨rfl, by decide, h1 [⟨some 2020, some 5⟩] (some 10) "humidity" rfl (by decide)⟩,
         ⟨rfl, h2 [⟨some 2020, some 5⟩] none "precipitation" .ge rfl (by decide)⟩,
         h3 [⟨some 2020, some 5⟩] "precipitation" (by decide),
         h4 [⟨some 2020, some 5⟩] 10 "humidity" (by decide) (by decide),
         h5 [⟨some 2020, none⟩] 10 "precipitation" (by decide) (by decide) (by decide)⟩
